import Mathlib

/-!
Verification development for the NDVI_Calculate repository.

The repository has two Python source files:
  * `data_gen.py` — synthesizes a reproducible grid of multispectral
    reflectance records (`generate_spectral_grid`) and serializes them
    to/from CSV (`save_records_csv`, `load_records_csv`);
  * `main.py` — computes NDVI per record (`ndvi`), aggregates it
    (`run_example`) and renders a heatmap grid (`visualize_ndvi`).

Shallow embedding conventions:
  * Python floats are modelled as rationals (ℚ); all arithmetic the
    claims depend on (min/max clamping, field arithmetic, division)
    is exact, so ℚ is a faithful carrier.
  * `math.exp` and `math.sin` are modelled as abstract parameters
    `mexp msin : ℚ → ℚ`; no claim depends on analytic facts about them.
  * The seeded generator `random.Random(seed)` is modelled by an
    `Oracle`: two streams `g` (standard Gaussian variates) and `u`
    (unit-interval variates) indexed by a single global draw counter
    that every primitive call advances by one, mirroring the single
    shared stream consumed in a fixed order.  `rng.gauss(mu, sigma)`
    at counter `k` yields `mu + sigma * g k`; `rng.uniform(a, b)`
    yields `a + (b - a) * u k`; `rng.random()` yields `u k`.
    A fixed seed corresponds to a fixed oracle.
  * Python `range`/list iteration becomes structural recursion over
    `List`; the per-cell loop body threads the draw counter exactly
    as the source threads the shared `rng`.
-/

/-- The two random streams of a seeded `random.Random` instance, indexed by
the global draw counter: `g k` is the standard normal variate behind a
`gauss` call made at counter `k`, `u k` the unit variate behind a
`uniform`/`random` call made at counter `k`. -/
structure Oracle where
  g : ℕ → ℚ
  u : ℕ → ℚ

/-- Value of `rng.uniform(a, b)` given the unit variate `x`. -/
def uniformV (a b x : ℚ) : ℚ := a + (b - a) * x

/-- Value of `rng.gauss(mu, sigma)` given the standard variate `x`. -/
def gaussV (mu sigma x : ℚ) : ℚ := mu + sigma * x

/-- `data_gen._clamp`: `max(lo, min(hi, value))`. -/
def _clamp (value lo hi : ℚ) : ℚ := max lo (min hi value)

/-- One grid cell's observation (`data_gen.SpectralRecord`). -/
structure SpectralRecord where
  plot_id : String
  row : ℤ
  col : ℤ
  blue_480 : ℚ
  green_560 : ℚ
  red_665 : ℚ
  red_edge_705 : ℚ
  red_edge_740 : ℚ
  nir_842 : ℚ
  nir2_865 : ℚ
  swir_1610 : ℚ
  swir_2190 : ℚ
  deriving DecidableEq, Inhabited

/-- Big-endian decimal digit characters of `n` (empty for `n = 0`),
the digits of Python's `str`/format rendering of a nonnegative int. -/
def digitsBE (n : ℕ) : List Char := ((Nat.digits 10 n).reverse).map Nat.digitChar

/-- Decimal digit characters of `n` left-padded with `'0'` to width `w`,
modelling Python's zero-padded format spec (e.g. `03d` has `w = 3`). -/
def padDigits (w n : ℕ) : List Char :=
  List.replicate (w - (digitsBE n).length) '0' ++ digitsBE n

/-- The f-string `R{r + 1:03d}C{c + 1:03d}` of `data_gen.generate_spectral_grid`
(the generator only ever calls it with `0 ≤ r`, `0 ≤ c`). -/
def mkPlotId (r c : ℤ) : String :=
  String.mk ('R' :: padDigits 3 (r + 1).toNat ++ 'C' :: padDigits 3 (c + 1).toNat)

/-- The per-column banding bias list `col_bias`, as a lookup: column `c`
was drawn by `rng.gauss(1.0, 0.01)` at global counter `c`, since the
`col_bias` comprehension is the first consumer of the stream. -/
def colBias (O : Oracle) (c : ℤ) : ℚ := gaussV 1.0 0.01 (O.g c.toNat)

/-- The per-row illumination gradient list `row_gradient`, as a lookup:
`1.0 + 0.04 * math.sin(r / 11.0)`, no randomness. -/
def rowGrad (msin : ℚ → ℚ) (r : ℤ) : ℚ := 1.0 + 0.04 * msin ((r : ℚ) / 11.0)

/-- The `stress_centers` list: two pockets, each `(center_r, center_c, sigma2)`. -/
def stressCenters (rows cols : ℤ) : List (ℚ × ℚ × ℚ) :=
  [((rows : ℚ) * 0.65, (cols : ℚ) * 0.68, ((rows : ℚ) * 0.20) ^ 2),
   ((rows : ℚ) * 0.30, (cols : ℚ) * 0.25, ((rows : ℚ) * 0.18) ^ 2)]

/-- The stress accumulation loop of `generate_spectral_grid`: starting from
`0.0`, add `exp(-dist2 / (2 * sigma2))` for each pocket, then clamp to
`[0.0, 1.6]`. -/
def stressAt (mexp : ℚ → ℚ) (rows cols : ℤ) (r c : ℤ) : ℚ :=
  _clamp
    ((stressCenters rows cols).foldl
      (fun acc t =>
        acc + mexp (-(((r : ℚ) - t.1) ^ 2 + ((c : ℚ) - t.2.1) ^ 2) / (2 * t.2.2)))
      0.0)
    0.0 1.6

/-- Body of the per-cell loop of `generate_spectral_grid` at cell `(r, c)`
with the global draw counter at `k`.  Returns the assembled record, a flag
recording whether the thin-cloud perturbation fired, and the advanced
counter.  Draw offsets follow the source's call order exactly:
illumination uniform, target-NDVI gauss, reflectance uniform, nir gauss,
red gauss, blue, green, red_edge, red_edge2, nir2, swir1, swir2 gauss
draws, the cloud `random()` check, then (only if it fires) the two
factor uniforms. -/
def genCell (O : Oracle) (mexp msin : ℚ → ℚ) (rows cols r c : ℤ) (k : ℕ) :
    (SpectralRecord × Bool) × ℕ :=
  let stress := stressAt mexp rows cols r c
  let fertility := 0.15 * (1 - (r : ℚ) / (rows : ℚ)) + 0.05 * ((c : ℚ) / (cols : ℚ))
  let illumination := uniformV 0.93 1.07 (O.u k) * rowGrad msin r * colBias O c
  let target_ndvi :=
    _clamp (0.70 + fertility - 0.40 * stress + gaussV 0.0 0.02 (O.g (k + 1))) 0.05 0.92
  let total_reflectance := illumination * uniformV 0.42 0.80 (O.u (k + 2))
  let nir0 := (target_ndvi + 1.0) * total_reflectance / 2.0
  let red0 := total_reflectance - nir0
  let nir := _clamp (nir0 + gaussV 0.0 0.006 (O.g (k + 3))) 0.01 0.95
  let red := _clamp (red0 + gaussV 0.0 0.006 (O.g (k + 4))) 0.01 0.95
  let blue :=
    _clamp (0.04 + 0.07 * (1.1 - target_ndvi) + gaussV 0.0 0.006 (O.g (k + 5))) 0.02 0.22
  let green :=
    _clamp (0.20 + 0.12 * (0.9 - stress) + gaussV 0.0 0.01 (O.g (k + 6))) 0.12 0.42
  let red_edge :=
    _clamp (0.18 + 0.40 * target_ndvi + gaussV 0.0 0.008 (O.g (k + 7))) 0.10 0.70
  let red_edge2 :=
    _clamp (red_edge + 0.05 * (target_ndvi - 0.5) + gaussV 0.0 0.006 (O.g (k + 8))) 0.10 0.75
  let nir2 :=
    _clamp (nir + gaussV 0.0 0.004 (O.g (k + 9)) + 0.02 * (1.0 - stress)) 0.05 0.95
  let swir1 := _clamp (0.22 + 0.28 * stress + gaussV 0.0 0.01 (O.g (k + 10))) 0.10 0.70
  let swir2 := _clamp (swir1 + 0.05 * stress + gaussV 0.0 0.01 (O.g (k + 11))) 0.10 0.75
  if O.u (k + 12) < 0.02 then
    let factor_vis := uniformV 1.05 1.12 (O.u (k + 13))
    let factor_nir := uniformV 0.90 0.96 (O.u (k + 14))
    ((⟨mkPlotId r c, r, c, blue * factor_vis, green * factor_vis, red * factor_vis,
        red_edge * factor_vis, red_edge2 * factor_vis, nir * factor_nir,
        nir2 * factor_nir, swir1 * (factor_vis * 0.9), swir2 * (factor_vis * 0.9)⟩,
      true), k + 15)
  else
    ((⟨mkPlotId r c, r, c, blue, green, red, red_edge, red_edge2, nir, nir2,
        swir1, swir2⟩, false), k + 13)

/-- The inner (column) loop of `generate_spectral_grid` over the column
indices `cs` of row `r`, threading the draw counter. -/
def genCells (O : Oracle) (mexp msin : ℚ → ℚ) (rows cols r : ℤ) (cs : List ℤ) (k : ℕ) :
    List (SpectralRecord × Bool) × ℕ :=
  match cs with
  | [] => ([], k)
  | c :: rest =>
      let first := genCell O mexp msin rows cols r c k
      let next := genCells O mexp msin rows cols r rest first.2
      (first.1 :: next.1, next.2)

/-- The outer (row) loop of `generate_spectral_grid` over the row indices
`rs`, threading the draw counter. -/
def genRows (O : Oracle) (mexp msin : ℚ → ℚ) (rows cols : ℤ) (rs : List ℤ) (cols' : List ℤ)
    (k : ℕ) : List (SpectralRecord × Bool) × ℕ :=
  match rs with
  | [] => ([], k)
  | r :: rest =>
      let thisRow := genCells O mexp msin rows cols r cols' k
      let next := genRows O mexp msin rows cols rest cols' thisRow.2
      (thisRow.1 ++ next.1, next.2)

/-- `range(n)` of a Python int, as a list of ints. -/
def intRange (n : ℤ) : List ℤ := (List.range n.toNat).map (fun (i : ℕ) => (i : ℤ))

/-- The whole record-producing pass of `generate_spectral_grid`, each record
paired with the flag saying whether its cloud perturbation fired.  The
cell loop starts with the draw counter at `cols.toNat` because the
`col_bias` comprehension consumed the first `cols` draws. -/
def generateFlagged (rows cols : ℤ) (O : Oracle) (mexp msin : ℚ → ℚ) :
    List (SpectralRecord × Bool) :=
  (genRows O mexp msin rows cols (intRange rows) (intRange cols) cols.toNat).1

/-- The record list returned by `generate_spectral_grid`. -/
def generateRecords (rows cols : ℤ) (O : Oracle) (mexp msin : ℚ → ℚ) :
    List SpectralRecord :=
  (generateFlagged rows cols O mexp msin).map Prod.fst

/-- Error type named by the specification's error-handling design
(`InvalidDimension`).  The source of `generate_spectral_grid` contains no
validation and no `raise`, so the embedding below never produces it. -/
inductive GenError where
  | invalidDimension : GenError
  deriving DecidableEq

/-- `data_gen.generate_spectral_grid` as a fallible call: the source body
has no `raise` path, so it always returns its record list normally. -/
def generate_spectral_grid (rows cols : ℤ) (O : Oracle) (mexp msin : ℚ → ℚ) :
    Except GenError (List SpectralRecord) :=
  Except.ok (generateRecords rows cols O mexp msin)

/-- `main.ndvi`: `(nir - red) / (nir + red)`, with the float NaN returned on a
zero denominator modelled as the `none` sentinel. -/
def ndvi (red nir : ℚ) : Option ℚ :=
  if nir + red = 0 then none else some ((nir - red) / (nir + red))

/-- `main.NDVIResult`: a `(row, col, plot_id, ndvi)` tuple. -/
abbrev NDVIResult : Type := ℤ × ℤ × String × Option ℚ

/-- The result list built by `main.run_example` (its printing is I/O and
carries no data the claims mention). -/
def run_example (records : List SpectralRecord) : List NDVIResult :=
  records.map (fun rec => (rec.row, rec.col, rec.plot_id, ndvi rec.red_665 rec.nir_842))

/-- The `valid` list of `main.run_example`: the NDVI values that are finite,
i.e. not the undefined sentinel. -/
def validNdvi (results : List NDVIResult) : List ℚ :=
  results.filterMap (fun t => t.2.2.2)

/-- `mean_ndvi` of `main.run_example`: `sum(valid) / len(valid)` when `valid`
is nonempty, otherwise NaN (modelled `none`). -/
def meanNdvi (results : List NDVIResult) : Option ℚ :=
  if validNdvi results = [] then none
  else some ((validNdvi results).sum / ((validNdvi results).length : ℚ))

/-- `lo` of `main.run_example`: `min(valid)` when nonempty, else NaN. -/
def minNdvi (results : List NDVIResult) : Option ℚ :=
  match validNdvi results with
  | [] => none
  | x :: xs => some (xs.foldl min x)

/-- `hi` of `main.run_example`: `max(valid)` when nonempty, else NaN. -/
def maxNdvi (results : List NDVIResult) : Option ℚ :=
  match validNdvi results with
  | [] => none
  | x :: xs => some (xs.foldl max x)

/-- `main.run_example` with the record list threaded as explicit state: the
source only reads record attributes, so the state component it leaves
behind is the input list itself. -/
def run_example_st (records : List SpectralRecord) :
    List NDVIResult × List SpectralRecord :=
  (run_example records, records)

/-- The grid-filling loop of `main.visualize_ndvi`: start from an all-NaN
grid and write each in-range result's value at its `(row, col)`; later
results overwrite earlier ones, as the source's assignments do. -/
def ndviGrid (results : List NDVIResult) (rows cols : ℤ) : ℤ → ℤ → Option ℚ :=
  results.foldl
    (fun grid t => fun ri ci =>
      if 0 ≤ t.1 ∧ t.1 < rows ∧ 0 ≤ t.2.1 ∧ t.2.1 < cols ∧ ri = t.1 ∧ ci = t.2.1
      then t.2.2.2 else grid ri ci)
    (fun _ _ => none)

/-- `main.visualize_ndvi` with results and records threaded as explicit
state: the computational part builds the grid (the matplotlib calls are
I/O); the source never writes to a result tuple or a record. -/
def visualize_ndvi_st (results : List NDVIResult) (rows cols : ℤ)
    (records : List SpectralRecord) :
    (ℤ → ℤ → Option ℚ) × List NDVIResult × List SpectralRecord :=
  (ndviGrid results rows cols, results, records)

/-- Python decimal rendering of a nonnegative int (`str(n)` digits). -/
def natStr (n : ℕ) : List Char := if n = 0 then ['0'] else digitsBE n

/-- Python `str` of an int, as written by `csv.writer` for `row`/`col`. -/
def intStr (n : ℤ) : List Char := (if n < 0 then ['-'] else []) ++ natStr n.natAbs

/-- Rounding to 4 decimal places: the value carried by a `:.4f` cell. -/
def round4 (x : ℚ) : ℚ := (round (x * 10000) : ℚ) / 10000

/-- The `:.4f` rendering of `x`: sign, integer part, dot, exactly four
fractional digits. -/
def fmt4 (x : ℚ) : List Char :=
  let n := round (x * 10000)
  (if n < 0 then ['-'] else []) ++
    natStr (n.natAbs / 10000) ++ '.' :: padDigits 4 (n.natAbs % 10000)

/-- Numeric value of a decimal digit character. -/
def chVal (ch : Char) : ℕ := ch.toNat - 48

/-- Value of a big-endian decimal digit string. -/
def chFold (l : List Char) : ℕ := l.foldl (fun acc ch => 10 * acc + chVal ch) 0

/-- Python `int(s)` on an optionally signed decimal string. -/
def parseIntChars (l : List Char) : Option ℤ :=
  if l.head? = some '-' then
    if l.tail ≠ [] ∧ l.tail.all (fun ch => ch.isDigit) then some (-(chFold l.tail : ℤ))
    else none
  else if l ≠ [] ∧ l.all (fun ch => ch.isDigit) then some ((chFold l : ℤ))
  else none

/-- Core of `float(s)` on an unsigned decimal string, exact in ℚ. -/
def parseFloatCore (m : List Char) : Option ℚ :=
  let ip := m.takeWhile (fun ch => ch != '.')
  let rest := m.dropWhile (fun ch => ch != '.')
  if rest.head? = some '.' then
    if ip.all (fun ch => ch.isDigit) ∧ rest.tail.all (fun ch => ch.isDigit) ∧
        (ip ≠ [] ∨ rest.tail ≠ []) then
      some ((chFold ip : ℚ) + (chFold rest.tail : ℚ) / (10 : ℚ) ^ rest.tail.length)
    else none
  else if m ≠ [] ∧ m.all (fun ch => ch.isDigit) then some ((chFold m : ℚ))
  else none

/-- Python `float(s)` restricted to plain signed decimal notation — the only
shape this codec ever writes; the parsed value is exact in ℚ. -/
def parseFloatChars (l : List Char) : Option ℚ :=
  if l.head? = some '-' then (parseFloatCore l.tail).map (fun v => -v)
  else parseFloatCore l

/-- The header row written by `save_records_csv`. -/
def csvHeader : List String :=
  ["plot_id", "row", "col", "blue_480", "green_560", "red_665", "red_edge_705",
   "red_edge_740", "nir_842", "nir2_865", "swir_1610", "swir_2190"]

/-- The cell row written for one record by `save_records_csv`: `plot_id`
verbatim, `row`/`col` as ints, the nine bands through `:.4f`. -/
def saveRow (rec : SpectralRecord) : List String :=
  [rec.plot_id, String.mk (intStr rec.row), String.mk (intStr rec.col),
   String.mk (fmt4 rec.blue_480), String.mk (fmt4 rec.green_560),
   String.mk (fmt4 rec.red_665), String.mk (fmt4 rec.red_edge_705),
   String.mk (fmt4 rec.red_edge_740), String.mk (fmt4 rec.nir_842),
   String.mk (fmt4 rec.nir2_865), String.mk (fmt4 rec.swir_1610),
   String.mk (fmt4 rec.swir_2190)]

/-- `data_gen.save_records_csv`, as the list of rows of the written file. -/
def save_records_csv (records : List SpectralRecord) : List (List String) :=
  csvHeader :: records.map saveRow

/-- One `DictReader` data row turned into a record by the loop body of
`load_records_csv`: `int(...)` on `row`/`col`, `float(...)` on bands. -/
def parseRow (cells : List String) : Option SpectralRecord :=
  match cells with
  | [pid, rS, cS, b1, b2, b3, b4, b5, b6, b7, b8, b9] => do
      let r ← parseIntChars rS.data
      let c ← parseIntChars cS.data
      let v1 ← parseFloatChars b1.data
      let v2 ← parseFloatChars b2.data
      let v3 ← parseFloatChars b3.data
      let v4 ← parseFloatChars b4.data
      let v5 ← parseFloatChars b5.data
      let v6 ← parseFloatChars b6.data
      let v7 ← parseFloatChars b7.data
      let v8 ← parseFloatChars b8.data
      let v9 ← parseFloatChars b9.data
      some ⟨pid, r, c, v1, v2, v3, v4, v5, v6, v7, v8, v9⟩
  | _ => none

/-- The record-accumulating loop of `load_records_csv`. -/
def parseRows : List (List String) → Option (List SpectralRecord)
  | [] => some []
  | r :: rest =>
      match parseRow r, parseRows rest with
      | some rec, some recs => some (rec :: recs)
      | _, _ => none

/-- `data_gen.load_records_csv`: `DictReader` takes the first row as header
and builds one record per data row from the named columns; a missing or
reshaped header surfaces as a failure (`KeyError` in the source). -/
def load_records_csv (csvRows : List (List String)) : Option (List SpectralRecord) :=
  match csvRows with
  | [] => none
  | hdr :: dataRows => if hdr = csvHeader then parseRows dataRows else none

/-- A record with each band rounded to 4 decimal places, identity fields
kept exactly. -/
def roundRecord4 (rec : SpectralRecord) : SpectralRecord :=
  { rec with
    blue_480 := round4 rec.blue_480, green_560 := round4 rec.green_560,
    red_665 := round4 rec.red_665, red_edge_705 := round4 rec.red_edge_705,
    red_edge_740 := round4 rec.red_edge_740, nir_842 := round4 rec.nir_842,
    nir2_865 := round4 rec.nir2_865, swir_1610 := round4 rec.swir_1610,
    swir_2190 := round4 rec.swir_2190 }

/-- The nine documented clamp intervals of the band synthesizer (step 4 of
the spec, i.e. the `_clamp` calls of `generate_spectral_grid`). -/
def bandsInRange (rec : SpectralRecord) : Prop :=
  0.02 ≤ rec.blue_480 ∧ rec.blue_480 ≤ 0.22 ∧
  0.12 ≤ rec.green_560 ∧ rec.green_560 ≤ 0.42 ∧
  0.01 ≤ rec.red_665 ∧ rec.red_665 ≤ 0.95 ∧
  0.10 ≤ rec.red_edge_705 ∧ rec.red_edge_705 ≤ 0.70 ∧
  0.10 ≤ rec.red_edge_740 ∧ rec.red_edge_740 ≤ 0.75 ∧
  0.01 ≤ rec.nir_842 ∧ rec.nir_842 ≤ 0.95 ∧
  0.05 ≤ rec.nir2_865 ∧ rec.nir2_865 ≤ 0.95 ∧
  0.10 ≤ rec.swir_1610 ∧ rec.swir_1610 ≤ 0.70 ∧
  0.10 ≤ rec.swir_2190 ∧ rec.swir_2190 ≤ 0.75

/-- The clamp intervals widened by the thin-cloud factors: `fvis` on the
visible and red-edge bands, `fnir` on the NIR bands, `fvis * 0.9` on the
SWIR bands — exactly the multiplications the cloud branch applies. -/
def bandsInRangeScaled (rec : SpectralRecord) (fvis fnir : ℚ) : Prop :=
  0.02 * fvis ≤ rec.blue_480 ∧ rec.blue_480 ≤ 0.22 * fvis ∧
  0.12 * fvis ≤ rec.green_560 ∧ rec.green_560 ≤ 0.42 * fvis ∧
  0.01 * fvis ≤ rec.red_665 ∧ rec.red_665 ≤ 0.95 * fvis ∧
  0.10 * fvis ≤ rec.red_edge_705 ∧ rec.red_edge_705 ≤ 0.70 * fvis ∧
  0.10 * fvis ≤ rec.red_edge_740 ∧ rec.red_edge_740 ≤ 0.75 * fvis ∧
  0.01 * fnir ≤ rec.nir_842 ∧ rec.nir_842 ≤ 0.95 * fnir ∧
  0.05 * fnir ≤ rec.nir2_865 ∧ rec.nir2_865 ≤ 0.95 * fnir ∧
  0.10 * (fvis * 0.9) ≤ rec.swir_1610 ∧ rec.swir_1610 ≤ 0.70 * (fvis * 0.9) ∧
  0.10 * (fvis * 0.9) ≤ rec.swir_2190 ∧ rec.swir_2190 ≤ 0.75 * (fvis * 0.9)

/-- Decoder for `mkPlotId` strings, used to certify that distinct cells get
distinct plot ids: strips the leading `'R'`, splits at the `'C'`, and
reads the two padded decimal components back. -/
def decodeChars (l : List Char) : Option (ℕ × ℕ) :=
  if l.head? = some 'R' then
    if (l.tail.dropWhile (fun ch => ch != 'C')).head? = some 'C' then
      some (chFold (l.tail.takeWhile (fun ch => ch != 'C')),
        chFold (l.tail.dropWhile (fun ch => ch != 'C')).tail)
    else none
  else none

/-- A concrete oracle (all variates zero) used to evaluate the embedding on
concrete grids. -/
def zOracle : Oracle := ⟨fun _ => 0, fun _ => 0⟩

/-! ### Basic helper lemmas -/

theorem le_clamp (v lo hi : ℚ) : lo ≤ _clamp v lo hi := le_max_left lo _

theorem clamp_le (v lo hi : ℚ) (h : lo ≤ hi) : _clamp v lo hi ≤ hi :=
  max_le h (min_le_left hi v)

theorem getD_zero_mem {α : Type} [Inhabited α] (l : List α) (h : l ≠ []) :
    l.getD 0 default ∈ l := by
  cases l with
  | nil => exact absurd rfl h
  | cons a t => rw [List.getD_cons_zero]; exact List.mem_cons_self a t

/-! ### Structural lemmas about the generator loops -/

theorem genCell_row (O : Oracle) (mexp msin : ℚ → ℚ) (rows cols r c : ℤ) (k : ℕ) :
    ((genCell O mexp msin rows cols r c k).1.1).row = r := by
  unfold genCell
  split <;> rfl

theorem genCell_col (O : Oracle) (mexp msin : ℚ → ℚ) (rows cols r c : ℤ) (k : ℕ) :
    ((genCell O mexp msin rows cols r c k).1.1).col = c := by
  unfold genCell
  split <;> rfl

theorem genCell_plot (O : Oracle) (mexp msin : ℚ → ℚ) (rows cols r c : ℤ) (k : ℕ) :
    ((genCell O mexp msin rows cols r c k).1.1).plot_id = mkPlotId r c := by
  unfold genCell
  split <;> rfl

theorem genCells_map_rowcol (O : Oracle) (mexp msin : ℚ → ℚ) (rows cols r : ℤ)
    (cs : List ℤ) (k : ℕ) :
    (genCells O mexp msin rows cols r cs k).1.map (fun x => (x.1.row, x.1.col)) =
      cs.map (fun c => (r, c)) := by
  induction cs generalizing k with
  | nil => rfl
  | cons c rest ih =>
      simp only [genCells, List.map_cons, ih, genCell_row, genCell_col]

theorem genRows_map_rowcol (O : Oracle) (mexp msin : ℚ → ℚ) (rows cols : ℤ)
    (rs cols' : List ℤ) (k : ℕ) :
    (genRows O mexp msin rows cols rs cols' k).1.map (fun x => (x.1.row, x.1.col)) =
      rs.flatMap (fun r => cols'.map (fun c => (r, c))) := by
  induction rs generalizing k with
  | nil => rfl
  | cons r rest ih =>
      simp only [genRows, List.map_append, List.flatMap_cons, ih, genCells_map_rowcol]

theorem generateRecords_map_rowcol (rows cols : ℤ) (O : Oracle) (mexp msin : ℚ → ℚ) :
    (generateRecords rows cols O mexp msin).map (fun rec => (rec.row, rec.col)) =
      (intRange rows).flatMap (fun r => (intRange cols).map (fun c => (r, c))) := by
  unfold generateRecords generateFlagged
  rw [List.map_map]
  exact genRows_map_rowcol O mexp msin rows cols (intRange rows) (intRange cols) cols.toNat

theorem intRange_length (n : ℤ) : (intRange n).length = n.toNat := by
  rw [intRange, List.length_map, List.length_range]

theorem generateRecords_length (rows cols : ℤ) (O : Oracle) (mexp msin : ℚ → ℚ) :
    (generateRecords rows cols O mexp msin).length = rows.toNat * cols.toNat := by
  have h := congrArg List.length (generateRecords_map_rowcol rows cols O mexp msin)
  rw [List.length_map] at h
  rw [h, List.length_flatMap]
  have hmap : List.map (List.length ∘ fun r => List.map (fun c => (r, c)) (intRange cols))
      (intRange rows) = List.map (fun _ => cols.toNat) (intRange rows) := by
    simp [Function.comp_def, intRange_length]
  rw [hmap, List.map_const', List.sum_replicate, intRange_length, smul_eq_mul]

theorem mem_genCells {x : SpectralRecord × Bool} (O : Oracle) (mexp msin : ℚ → ℚ)
    (rows cols r : ℤ) (cs : List ℤ) (k : ℕ)
    (hx : x ∈ (genCells O mexp msin rows cols r cs k).1) :
    ∃ c ∈ cs, ∃ k', x = (genCell O mexp msin rows cols r c k').1 := by
  induction cs generalizing k with
  | nil => simp [genCells] at hx
  | cons c rest ih =>
      simp only [genCells, List.mem_cons] at hx
      rcases hx with h | h
      · exact ⟨c, List.mem_cons_self c rest, k, h⟩
      · obtain ⟨c', hc', k', hk'⟩ := ih _ h
        exact ⟨c', List.mem_cons_of_mem c hc', k', hk'⟩

theorem mem_genRows {x : SpectralRecord × Bool} (O : Oracle) (mexp msin : ℚ → ℚ)
    (rows cols : ℤ) (rs cols' : List ℤ) (k : ℕ)
    (hx : x ∈ (genRows O mexp msin rows cols rs cols' k).1) :
    ∃ r ∈ rs, ∃ c ∈ cols', ∃ k', x = (genCell O mexp msin rows cols r c k').1 := by
  induction rs generalizing k with
  | nil => simp [genRows] at hx
  | cons r rest ih =>
      simp only [genRows, List.mem_append] at hx
      rcases hx with h | h
      · obtain ⟨c, hc, k', hk'⟩ := mem_genCells O mexp msin rows cols r cols' k h
        exact ⟨r, List.mem_cons_self r rest, c, hc, k', hk'⟩
      · obtain ⟨r', hr', c, hc, k', hk'⟩ := ih _ h
        exact ⟨r', List.mem_cons_of_mem r hr', c, hc, k', hk'⟩

theorem mem_generateFlagged {x : SpectralRecord × Bool} (rows cols : ℤ) (O : Oracle)
    (mexp msin : ℚ → ℚ) (hx : x ∈ generateFlagged rows cols O mexp msin) :
    ∃ r ∈ intRange rows, ∃ c ∈ intRange cols, ∃ k',
      x = (genCell O mexp msin rows cols r c k').1 :=
  mem_genRows O mexp msin rows cols (intRange rows) (intRange cols) cols.toNat hx

theorem mem_generateRecords {rec : SpectralRecord} (rows cols : ℤ) (O : Oracle)
    (mexp msin : ℚ → ℚ) (hrec : rec ∈ generateRecords rows cols O mexp msin) :
    ∃ r ∈ intRange rows, ∃ c ∈ intRange cols, ∃ k',
      rec = ((genCell O mexp msin rows cols r c k').1).1 := by
  obtain ⟨x, hx, hxeq⟩ := List.mem_map.mp hrec
  obtain ⟨r, hr, c, hc, k', hk'⟩ := mem_generateFlagged rows cols O mexp msin hx
  exact ⟨r, hr, c, hc, k', by rw [← hxeq, hk']⟩

/-! ### Counting lemmas for grid coverage -/

theorem count_range_nat (a n : ℕ) : (List.range n).count a = if a < n then 1 else 0 := by
  induction n with
  | zero => simp
  | succ m ih =>
      rw [List.range_succ, List.count_append, ih]
      by_cases h : a = m
      · subst h
        simp [List.count_cons]
      · have h1 : List.count a [m] = 0 := by simp [List.count_cons, h]
        rw [h1]
        by_cases h2 : a < m
        · have h3 : a < m + 1 := Nat.lt_succ_of_lt h2
          simp [h2, h3]
        · have h3 : ¬ a < m + 1 := by omega
          simp [h2, h3]

theorem count_intRange (a n : ℤ) (h0 : 0 ≤ a) (hn : a < n) : (intRange n).count a = 1 := by
  unfold intRange
  have hinj : Function.Injective (fun (i : ℕ) => (i : ℤ)) := by
    intro x y hxy
    simpa using hxy
  have ha : a = ((a.toNat : ℕ) : ℤ) := (Int.toNat_of_nonneg h0).symm
  rw [ha, List.count_map_of_injective _ _ hinj, count_range_nat]
  have : a.toNat < n.toNat := by omega
  simp [this]

theorem count_pair_flatMap_zero (rs cs : List ℤ) (r c : ℤ) (h : rs.count r = 0) :
    (rs.flatMap (fun a => cs.map (fun b => (a, b)))).count (r, c) = 0 := by
  induction rs with
  | nil => simp
  | cons a rest ih =>
      rw [List.flatMap_cons, List.count_append]
      rw [List.count_cons] at h
      have ha : r ≠ a := by
        intro he
        simp [he] at h
      have h0 : rest.count r = 0 := by
        simp [ha] at h
        exact h.1
      have hm : (cs.map (fun b => (a, b))).count (r, c) = 0 := by
        rw [List.count_eq_zero]
        intro hmem
        obtain ⟨b, _, hb⟩ := List.mem_map.mp hmem
        exact ha (by cases hb; rfl)
      rw [hm, ih h0]

theorem count_map_pair (a c : ℤ) (cs : List ℤ) :
    (cs.map (fun b => (a, b))).count (a, c) = cs.count c := by
  induction cs with
  | nil => rfl
  | cons x rest ih =>
      rw [List.map_cons, List.count_cons, List.count_cons, ih]
      by_cases h : c = x
      · simp [h]
      · simp [h]

theorem count_pair_flatMap (rs cs : List ℤ) (r c : ℤ) (h1 : rs.count r = 1)
    (h2 : cs.count c = 1) :
    (rs.flatMap (fun a => cs.map (fun b => (a, b)))).count (r, c) = 1 := by
  induction rs with
  | nil => simp at h1
  | cons a rest ih =>
      rw [List.flatMap_cons, List.count_append]
      rw [List.count_cons] at h1
      by_cases ha : a = r
      · subst ha
        have hm : (cs.map (fun b => (a, b))).count (a, c) = 1 := by
          rw [count_map_pair a c cs, h2]
        have hr : rest.count a = 0 := by
          simp at h1
          omega
        rw [hm, count_pair_flatMap_zero rest cs a c hr]
      · have hm : (cs.map (fun b => (a, b))).count (r, c) = 0 := by
          rw [List.count_eq_zero]
          intro hmem
          obtain ⟨b, _, hb⟩ := List.mem_map.mp hmem
          exact ha (by cases hb; rfl)
        have hr : rest.count r = 1 := by
          simp [ha] at h1
          exact h1
        rw [hm, ih hr]

/-! ### Claim theorems C1 - C3 -/

/-- Claim C1: for every rows, cols and seed (oracle), two calls of
`generate_spectral_grid` with identical arguments return identical record
sequences — the same length and every field of every record equal —
since the whole pass is a deterministic function of the one seeded
stream, consumed in a fixed order. -/
theorem generate_deterministic (rows cols : ℤ) (O : Oracle) (mexp msin : ℚ → ℚ) :
    (generateRecords rows cols O mexp msin).length =
      (generateRecords rows cols O mexp msin).length ∧
    List.Forall₂ (fun a b : SpectralRecord =>
        a.plot_id = b.plot_id ∧ a.row = b.row ∧ a.col = b.col ∧
        a.blue_480 = b.blue_480 ∧ a.green_560 = b.green_560 ∧ a.red_665 = b.red_665 ∧
        a.red_edge_705 = b.red_edge_705 ∧ a.red_edge_740 = b.red_edge_740 ∧
        a.nir_842 = b.nir_842 ∧ a.nir2_865 = b.nir2_865 ∧ a.swir_1610 = b.swir_1610 ∧
        a.swir_2190 = b.swir_2190)
      (generateRecords rows cols O mexp msin) (generateRecords rows cols O mexp msin) := by
  refine ⟨rfl, List.forall₂_same.mpr fun x _ => ?_⟩
  exact ⟨rfl, rfl, rfl, rfl, rfl, rfl, rfl, rfl, rfl, rfl, rfl, rfl⟩

/-- Claim C2: for positive dimensions the generator returns exactly
`rows * cols` records, whose `(row, col)` pairs enumerate the grid in
row-major order (row outer, col inner), every in-range pair exactly
once. -/
theorem generate_coverage (rows cols : ℤ) (O : Oracle) (mexp msin : ℚ → ℚ)
    (hr : 0 < rows) (hc : 0 < cols) :
    ((generateRecords rows cols O mexp msin).length : ℤ) = rows * cols ∧
    (generateRecords rows cols O mexp msin).map (fun rec => (rec.row, rec.col)) =
      (intRange rows).flatMap (fun r => (intRange cols).map (fun c => (r, c))) ∧
    ∀ r c : ℤ, 0 ≤ r → r < rows → 0 ≤ c → c < cols →
      ((generateRecords rows cols O mexp msin).map
        (fun rec => (rec.row, rec.col))).count (r, c) = 1 := by
  refine ⟨?_, generateRecords_map_rowcol rows cols O mexp msin, ?_⟩
  · rw [generateRecords_length, Nat.cast_mul, Int.toNat_of_nonneg hr.le,
      Int.toNat_of_nonneg hc.le]
  · intro r c h0r hrr h0c hcc
    rw [generateRecords_map_rowcol]
    exact count_pair_flatMap _ _ r c (count_intRange r rows h0r hrr)
      (count_intRange c cols h0c hcc)

/-- Witness for C2 at a concrete 2 by 3 grid. -/
theorem generate_coverage_witness :
    ((generateRecords 2 3 zOracle id id).length : ℤ) = 2 * 3 ∧
    ((generateRecords 2 3 zOracle id id).map
      (fun rec => (rec.row, rec.col))).count (1, 2) = 1 := by
  obtain ⟨h1, _, h3⟩ := generate_coverage 2 3 zOracle id id (by norm_num) (by norm_num)
  exact ⟨h1, h3 1 2 (by norm_num) (by norm_num) (by norm_num) (by norm_num)⟩

/-- Counterexample to claim C3 as stated: at `rows = 0` (an invalid
dimension) `generate_spectral_grid` does not fail with an
InvalidDimension error — it returns an ordinary empty result; the source
contains no dimension check at all. -/
theorem generate_invalid_dims_counterexample :
    generate_spectral_grid 0 1 zOracle id id = Except.ok [] ∧
    generate_spectral_grid 0 1 zOracle id id ≠ Except.error GenError.invalidDimension := by
  constructor
  · rfl
  · intro h
    simp [generate_spectral_grid] at h

/-- Claim C3 (amended): for `rows ≤ 0` or `cols ≤ 0` the generator performs
no generation work — it returns an empty record list normally, rather
than failing with an InvalidDimension error. -/
theorem generate_invalid_dims (rows cols : ℤ) (O : Oracle) (mexp msin : ℚ → ℚ)
    (h : rows ≤ 0 ∨ cols ≤ 0) :
    generate_spectral_grid rows cols O mexp msin = Except.ok [] := by
  have hlen : (generateRecords rows cols O mexp msin).length = 0 := by
    rw [generateRecords_length]
    rcases h with h | h
    · have h0 : rows.toNat = 0 := by omega
      rw [h0, Nat.zero_mul]
    · have h0 : cols.toNat = 0 := by omega
      rw [h0, Nat.mul_zero]
  unfold generate_spectral_grid
  rw [List.length_eq_zero.mp hlen]

/-- Witness for the amended C3 at `rows = 0`, `cols = 5`. -/
theorem generate_invalid_dims_witness :
    generate_spectral_grid 0 5 zOracle id id = Except.ok [] :=
  generate_invalid_dims 0 5 zOracle id id (Or.inl le_rfl)

/-! ### Claim theorems C5, C7, C9 -/

/-- Claim C7: the stress value used by the synthesizer is the sum over
exactly two Gaussian pockets of `exp(-((r-cr)^2 + (c-cc)^2) / (2*sigma2))`
with centers `(0.65*rows, 0.68*cols)` and `(0.30*rows, 0.25*cols)` and
variances `(0.20*rows)^2` and `(0.18*rows)^2`, clamped to `[0.0, 1.6]`;
centers and variances are functions of `rows`/`cols` alone and `stressAt`
takes no random oracle at all. -/
theorem stress_formula (mexp : ℚ → ℚ) (rows cols r c : ℤ) :
    stressAt mexp rows cols r c =
      _clamp
        (mexp (-(((r : ℚ) - (rows : ℚ) * 0.65) ^ 2 + ((c : ℚ) - (cols : ℚ) * 0.68) ^ 2) /
            (2 * ((rows : ℚ) * 0.20) ^ 2)) +
         mexp (-(((r : ℚ) - (rows : ℚ) * 0.30) ^ 2 + ((c : ℚ) - (cols : ℚ) * 0.25) ^ 2) /
            (2 * ((rows : ℚ) * 0.18) ^ 2)))
        0.0 1.6 := by
  unfold stressAt stressCenters
  simp only [List.foldl_cons, List.foldl_nil]
  norm_num

/-- Witness for C7 at a concrete cell of a concrete grid. -/
theorem stress_formula_witness :
    stressAt id 4 4 1 2 =
      _clamp
        (id (-(((1 : ℚ) - (4 : ℚ) * 0.65) ^ 2 + ((2 : ℚ) - (4 : ℚ) * 0.68) ^ 2) /
            (2 * ((4 : ℚ) * 0.20) ^ 2)) +
         id (-(((1 : ℚ) - (4 : ℚ) * 0.30) ^ 2 + ((2 : ℚ) - (4 : ℚ) * 0.25) ^ 2) /
            (2 * ((4 : ℚ) * 0.18) ^ 2)))
        0.0 1.6 :=
  stress_formula id 4 4 1 2

/-- Claim C5: `ndvi` returns `(nir - red) / (nir + red)` exactly when the
denominator is nonzero, the undefined sentinel (not an error) exactly
when it is zero, and an undefined value contributes nothing to the
aggregate mean, min and max of `run_example`. -/
theorem ndvi_formula_and_exclusion :
    (∀ red nir : ℚ, nir + red ≠ 0 → ndvi red nir = some ((nir - red) / (nir + red))) ∧
    (∀ red nir : ℚ, nir + red = 0 → ndvi red nir = none) ∧
    (∀ (pre post : List NDVIResult) (r c : ℤ) (pid : String),
      meanNdvi (pre ++ (r, c, pid, none) :: post) = meanNdvi (pre ++ post) ∧
      minNdvi (pre ++ (r, c, pid, none) :: post) = minNdvi (pre ++ post) ∧
      maxNdvi (pre ++ (r, c, pid, none) :: post) = maxNdvi (pre ++ post)) := by
  refine ⟨fun red nir h => by simp [ndvi, h], fun red nir h => by simp [ndvi, h], ?_⟩
  intro pre post r c pid
  have hv : validNdvi (pre ++ (r, c, pid, none) :: post) = validNdvi (pre ++ post) := by
    simp [validNdvi, List.filterMap_append]
  refine ⟨?_, ?_, ?_⟩
  · simp only [meanNdvi, hv]
  · simp only [minNdvi, hv]
  · simp only [maxNdvi, hv]

/-- Witness for C5: the spec's own test values, `ndvi(red=0.2, nir=0.6) = 0.5`
and `ndvi(0, 0)` undefined. -/
theorem ndvi_formula_witness :
    ndvi 0.2 0.6 = some 0.5 ∧ ndvi 0 0 = none := by
  constructor
  · have h := ndvi_formula_and_exclusion.1 0.2 0.6 (by norm_num)
    have hval : ((0.6 : ℚ) - 0.2) / (0.6 + 0.2) = 0.5 := by norm_num
    rw [h, hval]
  · exact ndvi_formula_and_exclusion.2.1 0 0 (by norm_num)

/-- Claim C9: the Index Analyzer (`run_example`) and the Visualizer
(`visualize_ndvi`) leave every input record (and the analyzer's result
tuples) unchanged: threaded as explicit state through the embeddings of
both, the records come out exactly as they went in — the source bodies
only read attributes and only write to the visualizer's own grid. -/
theorem analyzer_visualizer_no_mutation (records : List SpectralRecord)
    (results : List NDVIResult) (rows cols : ℤ) :
    (run_example_st records).2 = records ∧
    (visualize_ndvi_st results rows cols records).2.1 = results ∧
    (visualize_ndvi_st results rows cols records).2.2 = records :=
  ⟨rfl, rfl, rfl⟩

/-- Witness for C9 on a concrete record list. -/
theorem analyzer_visualizer_no_mutation_witness :
    (run_example_st (generateRecords 1 1 zOracle id id)).2 =
      generateRecords 1 1 zOracle id id :=
  (analyzer_visualizer_no_mutation (generateRecords 1 1 zOracle id id) [] 1 1).1

/-! ### Per-cell band bounds (claims C4 and C10) -/

theorem uniformV_mem {a b x : ℚ} (hab : a ≤ b) (h0 : 0 ≤ x) (h1 : x ≤ 1) :
    a ≤ uniformV a b x ∧ uniformV a b x ≤ b := by
  unfold uniformV
  constructor <;> nlinarith

theorem clamp_mul_mem {v f : ℚ} (lo hi : ℚ) (hlohi : lo ≤ hi) (hf : 0 ≤ f) :
    lo * f ≤ _clamp v lo hi * f ∧ _clamp v lo hi * f ≤ hi * f :=
  ⟨mul_le_mul_of_nonneg_right (le_clamp v lo hi) hf,
   mul_le_mul_of_nonneg_right (clamp_le v lo hi hlohi) hf⟩

theorem genCell_bands (O : Oracle) (mexp msin : ℚ → ℚ) (rows cols r c : ℤ) (k : ℕ)
    (hO : ∀ n, 0 ≤ O.u n ∧ O.u n ≤ 1) :
    ((genCell O mexp msin rows cols r c k).1.2 = false →
      bandsInRange (genCell O mexp msin rows cols r c k).1.1) ∧
    ((genCell O mexp msin rows cols r c k).1.2 = true →
      ∃ fvis fnir : ℚ, 1.05 ≤ fvis ∧ fvis ≤ 1.12 ∧ 0.90 ≤ fnir ∧ fnir ≤ 0.96 ∧
        bandsInRangeScaled (genCell O mexp msin rows cols r c k).1.1 fvis fnir) := by
  by_cases hc : O.u (k + 12) < 0.02
  · simp only [genCell, if_pos hc]
    constructor
    · intro h
      simp at h
    · intro _
      have hu13 := hO (k + 13)
      have hu14 := hO (k + 14)
      have hv := uniformV_mem (show (1.05 : ℚ) ≤ 1.12 by norm_num) hu13.1 hu13.2
      have hn := uniformV_mem (show (0.90 : ℚ) ≤ 0.96 by norm_num) hu14.1 hu14.2
      have hv0 : (0 : ℚ) ≤ uniformV 1.05 1.12 (O.u (k + 13)) := by linarith [hv.1]
      have hn0 : (0 : ℚ) ≤ uniformV 0.90 0.96 (O.u (k + 14)) := by linarith [hn.1]
      have hv9 : (0 : ℚ) ≤ uniformV 1.05 1.12 (O.u (k + 13)) * 0.9 := by linarith
      refine ⟨uniformV 1.05 1.12 (O.u (k + 13)), uniformV 0.90 0.96 (O.u (k + 14)),
        hv.1, hv.2, hn.1, hn.2, ?_⟩
      unfold bandsInRangeScaled
      dsimp only
      exact ⟨(clamp_mul_mem 0.02 0.22 (by norm_num) hv0).1,
        (clamp_mul_mem 0.02 0.22 (by norm_num) hv0).2,
        (clamp_mul_mem 0.12 0.42 (by norm_num) hv0).1,
        (clamp_mul_mem 0.12 0.42 (by norm_num) hv0).2,
        (clamp_mul_mem 0.01 0.95 (by norm_num) hv0).1,
        (clamp_mul_mem 0.01 0.95 (by norm_num) hv0).2,
        (clamp_mul_mem 0.10 0.70 (by norm_num) hv0).1,
        (clamp_mul_mem 0.10 0.70 (by norm_num) hv0).2,
        (clamp_mul_mem 0.10 0.75 (by norm_num) hv0).1,
        (clamp_mul_mem 0.10 0.75 (by norm_num) hv0).2,
        (clamp_mul_mem 0.01 0.95 (by norm_num) hn0).1,
        (clamp_mul_mem 0.01 0.95 (by norm_num) hn0).2,
        (clamp_mul_mem 0.05 0.95 (by norm_num) hn0).1,
        (clamp_mul_mem 0.05 0.95 (by norm_num) hn0).2,
        (clamp_mul_mem 0.10 0.70 (by norm_num) hv9).1,
        (clamp_mul_mem 0.10 0.70 (by norm_num) hv9).2,
        (clamp_mul_mem 0.10 0.75 (by norm_num) hv9).1,
        (clamp_mul_mem 0.10 0.75 (by norm_num) hv9).2⟩
  · simp only [genCell, if_neg hc]
    constructor
    · intro _
      unfold bandsInRange
      dsimp only
      exact ⟨le_clamp _ _ _, clamp_le _ _ _ (by norm_num),
        le_clamp _ _ _, clamp_le _ _ _ (by norm_num),
        le_clamp _ _ _, clamp_le _ _ _ (by norm_num),
        le_clamp _ _ _, clamp_le _ _ _ (by norm_num),
        le_clamp _ _ _, clamp_le _ _ _ (by norm_num),
        le_clamp _ _ _, clamp_le _ _ _ (by norm_num),
        le_clamp _ _ _, clamp_le _ _ _ (by norm_num),
        le_clamp _ _ _, clamp_le _ _ _ (by norm_num),
        le_clamp _ _ _, clamp_le _ _ _ (by norm_num)⟩
    · intro h
      simp at h

theorem generateFlagged_length (rows cols : ℤ) (O : Oracle) (mexp msin : ℚ → ℚ) :
    (generateFlagged rows cols O mexp msin).length = rows.toNat * cols.toNat := by
  have h := generateRecords_length rows cols O mexp msin
  rwa [generateRecords, List.length_map] at h

theorem ndvi_of_pos {red nir : ℚ} (hr : 0 < red) (hn : 0 < nir) :
    ∃ v, ndvi red nir = some v ∧ -1 < v ∧ v < 1 := by
  have hd : 0 < nir + red := by linarith
  refine ⟨(nir - red) / (nir + red), by simp [ndvi, hd.ne'], ?_, ?_⟩
  · rw [lt_div_iff₀ hd]
    linarith
  · rw [div_lt_one hd]
    linarith

/-! ### Claim theorems C4 and C10 -/

/-- Claim C4: every record whose cloud perturbation did not fire has all
nine bands inside their documented clamp intervals; when it fired, each
band deviates only by the documented factors — `fvis ∈ [1.05, 1.12]` on
the visible/red-edge bands, `fnir ∈ [0.90, 0.96]` on the NIR bands, and
`fvis * 0.9` on the SWIR bands. -/
theorem generate_band_bounds (rows cols : ℤ) (O : Oracle) (mexp msin : ℚ → ℚ)
    (hO : ∀ n, 0 ≤ O.u n ∧ O.u n ≤ 1) :
    ∀ x ∈ generateFlagged rows cols O mexp msin,
      (x.2 = false → bandsInRange x.1) ∧
      (x.2 = true → ∃ fvis fnir : ℚ, 1.05 ≤ fvis ∧ fvis ≤ 1.12 ∧
        0.90 ≤ fnir ∧ fnir ≤ 0.96 ∧ bandsInRangeScaled x.1 fvis fnir) := by
  intro x hx
  obtain ⟨r, _, c, _, k', hk'⟩ := mem_generateFlagged rows cols O mexp msin hx
  subst hk'
  exact genCell_bands O mexp msin rows cols r c k' hO

/-- Witness for C4 on the single cell of a concrete 1 by 1 grid. -/
theorem generate_band_bounds_witness :
    (((generateFlagged 1 1 zOracle id id).getD 0 default).2 = false →
      bandsInRange ((generateFlagged 1 1 zOracle id id).getD 0 default).1) ∧
    (((generateFlagged 1 1 zOracle id id).getD 0 default).2 = true →
      ∃ fvis fnir : ℚ, 1.05 ≤ fvis ∧ fvis ≤ 1.12 ∧ 0.90 ≤ fnir ∧ fnir ≤ 0.96 ∧
        bandsInRangeScaled ((generateFlagged 1 1 zOracle id id).getD 0 default).1
          fvis fnir) := by
  apply generate_band_bounds 1 1 zOracle id id (by intro n; norm_num [zOracle])
  apply getD_zero_mem
  intro hnil
  have h := generateFlagged_length 1 1 zOracle id id
  rw [hnil] at h
  simp at h

/-- Claim C10: every generated record has `red_665 ≥ 0.01` and
`nir_842 ≥ 0.009` (cloud or not), so the denominator `nir + red` is
nonzero and the record's NDVI is a defined value strictly between -1
and 1, never the undefined sentinel. -/
theorem generate_ndvi_defined (rows cols : ℤ) (O : Oracle) (mexp msin : ℚ → ℚ)
    (hO : ∀ n, 0 ≤ O.u n ∧ O.u n ≤ 1) :
    ∀ rec ∈ generateRecords rows cols O mexp msin,
      0.01 ≤ rec.red_665 ∧ 0.009 ≤ rec.nir_842 ∧
      ∃ v, ndvi rec.red_665 rec.nir_842 = some v ∧ -1 < v ∧ v < 1 := by
  intro rec hrec
  obtain ⟨r, _, c, _, k', hk'⟩ := mem_generateRecords rows cols O mexp msin hrec
  have hb := genCell_bands O mexp msin rows cols r c k' hO
  have hred : (0.01 : ℚ) ≤ rec.red_665 ∧ (0.009 : ℚ) ≤ rec.nir_842 := by
    cases hflag : (genCell O mexp msin rows cols r c k').1.2 with
    | false =>
        have h := hb.1 hflag
        rw [hk']
        obtain ⟨_, _, _, _, hr1, _, _, _, _, _, hn1, _, _, _, _, _, _, _⟩ := h
        exact ⟨hr1, by linarith⟩
    | true =>
        obtain ⟨fvis, fnir, hf1, _, hf3, _, h⟩ := hb.2 hflag
        rw [hk']
        obtain ⟨_, _, _, _, hr1, _, _, _, _, _, hn1, _, _, _, _, _, _, _⟩ := h
        exact ⟨by linarith, by linarith⟩
  exact ⟨hred.1, hred.2, ndvi_of_pos (by linarith [hred.1]) (by linarith [hred.2])⟩

/-- Witness for C10 on the single record of a concrete 1 by 1 grid. -/
theorem generate_ndvi_defined_witness :
    0.01 ≤ ((generateRecords 1 1 zOracle id id).getD 0 default).red_665 ∧
    0.009 ≤ ((generateRecords 1 1 zOracle id id).getD 0 default).nir_842 ∧
    ∃ v, ndvi ((generateRecords 1 1 zOracle id id).getD 0 default).red_665
        ((generateRecords 1 1 zOracle id id).getD 0 default).nir_842 = some v ∧
      -1 < v ∧ v < 1 := by
  apply generate_ndvi_defined 1 1 zOracle id id (by intro n; norm_num [zOracle])
  apply getD_zero_mem
  intro hnil
  have h := generateRecords_length 1 1 zOracle id id
  rw [hnil] at h
  simp at h

/-! ### Decimal digit-string lemmas (plot ids and the CSV codec) -/

theorem chVal_digitChar {d : ℕ} (h : d < 10) : chVal (Nat.digitChar d) = d := by
  interval_cases d <;> decide

theorem digitChar_isDigit {d : ℕ} (h : d < 10) : (Nat.digitChar d).isDigit = true := by
  interval_cases d <;> decide

theorem digitChar_ne_C {d : ℕ} (h : d < 10) : (Nat.digitChar d != 'C') = true := by
  interval_cases d <;> decide

theorem digitChar_ne_dot {d : ℕ} (h : d < 10) : (Nat.digitChar d != '.') = true := by
  interval_cases d <;> decide

theorem mem_digitsBE {ch : Char} {n : ℕ} (h : ch ∈ digitsBE n) :
    ∃ d, d < 10 ∧ ch = Nat.digitChar d := by
  unfold digitsBE at h
  obtain ⟨d, hd, hdc⟩ := List.mem_map.mp h
  exact ⟨d, Nat.digits_lt_base (by norm_num) (List.mem_reverse.mp hd), hdc.symm⟩

theorem mem_padDigits {ch : Char} {w n : ℕ} (h : ch ∈ padDigits w n) :
    ch = '0' ∨ ∃ d, d < 10 ∧ ch = Nat.digitChar d := by
  unfold padDigits at h
  rcases List.mem_append.mp h with h | h
  · exact Or.inl (List.eq_of_mem_replicate h)
  · exact Or.inr (mem_digitsBE h)

theorem padDigits_isDigit {ch : Char} {w n : ℕ} (h : ch ∈ padDigits w n) :
    ch.isDigit = true := by
  rcases mem_padDigits h with h | ⟨d, hd, h⟩
  · subst h; decide
  · subst h; exact digitChar_isDigit hd

theorem padDigits_ne_C {ch : Char} {w n : ℕ} (h : ch ∈ padDigits w n) :
    (ch != 'C') = true := by
  rcases mem_padDigits h with h | ⟨d, hd, h⟩
  · subst h; decide
  · subst h; exact digitChar_ne_C hd

theorem padDigits_ne_dot {ch : Char} {w n : ℕ} (h : ch ∈ padDigits w n) :
    (ch != '.') = true := by
  rcases mem_padDigits h with h | ⟨d, hd, h⟩
  · subst h; decide
  · subst h; exact digitChar_ne_dot hd

theorem takeWhile_append_all {α : Type} {p : α → Bool} {l r : List α}
    (h : ∀ a ∈ l, p a = true) : (l ++ r).takeWhile p = l ++ r.takeWhile p := by
  induction l with
  | nil => rfl
  | cons a t ih =>
      simp only [List.cons_append, List.takeWhile_cons, h a (List.mem_cons_self a t),
        if_true]
      rw [ih (fun x hx => h x (List.mem_cons_of_mem a hx))]

theorem dropWhile_append_all {α : Type} {p : α → Bool} {l r : List α}
    (h : ∀ a ∈ l, p a = true) : (l ++ r).dropWhile p = r.dropWhile p := by
  induction l with
  | nil => rfl
  | cons a t ih =>
      simp only [List.cons_append, List.dropWhile_cons, h a (List.mem_cons_self a t),
        if_true]
      exact ih (fun x hx => h x (List.mem_cons_of_mem a hx))

theorem foldl_digit_chars (ds : List ℕ) (h : ∀ d ∈ ds, d < 10) (a : ℕ) :
    ((ds.reverse).map Nat.digitChar).foldl (fun acc ch => 10 * acc + chVal ch) a =
      a * 10 ^ ds.length + Nat.ofDigits 10 ds := by
  induction ds generalizing a with
  | nil => simp [Nat.ofDigits]
  | cons d t ih =>
      rw [List.reverse_cons, List.map_append, List.foldl_append]
      rw [ih (fun x hx => h x (List.mem_cons_of_mem d hx))]
      simp only [List.map_cons, List.map_nil, List.foldl_cons, List.foldl_nil]
      rw [chVal_digitChar (h d (List.mem_cons_self d t))]
      rw [Nat.ofDigits_cons, List.length_cons]
      ring

theorem chFold_digitsBE (n : ℕ) : chFold (digitsBE n) = n := by
  unfold chFold digitsBE
  rw [foldl_digit_chars (Nat.digits 10 n)
    (fun d hd => Nat.digits_lt_base (by norm_num) hd) 0]
  simp [Nat.ofDigits_digits]

theorem foldl_zeros (m : ℕ) :
    (List.replicate m '0').foldl (fun acc ch => 10 * acc + chVal ch) 0 = 0 := by
  induction m with
  | zero => rfl
  | succ t ih =>
      rw [List.replicate_succ, List.foldl_cons]
      simpa using ih

theorem chFold_padDigits (w n : ℕ) : chFold (padDigits w n) = n := by
  unfold padDigits
  have h : chFold (List.replicate (w - (digitsBE n).length) '0' ++ digitsBE n) =
      (digitsBE n).foldl (fun acc ch => 10 * acc + chVal ch)
        ((List.replicate (w - (digitsBE n).length) '0').foldl
          (fun acc ch => 10 * acc + chVal ch) 0) := by
    unfold chFold
    rw [List.foldl_append]
  rw [h, foldl_zeros]
  exact chFold_digitsBE n

theorem decodeChars_mkPlot (m n : ℕ) :
    decodeChars ('R' :: padDigits 3 m ++ 'C' :: padDigits 3 n) = some (m, n) := by
  have hall : ∀ ch ∈ padDigits 3 m, (ch != 'C') = true := fun ch hch => padDigits_ne_C hch
  unfold decodeChars
  dsimp only [List.cons_append, List.head?_cons, List.tail_cons]
  rw [if_pos rfl]
  rw [dropWhile_append_all hall, takeWhile_append_all hall]
  simp only [List.dropWhile_cons, List.takeWhile_cons]
  norm_num
  exact ⟨chFold_padDigits 3 m, chFold_padDigits 3 n⟩

theorem mkPlotId_inj {r c r' c' : ℤ} (hr : 0 ≤ r) (hc : 0 ≤ c) (hr' : 0 ≤ r')
    (hc' : 0 ≤ c') (h : mkPlotId r c = mkPlotId r' c') : r = r' ∧ c = c' := by
  have hdata := congrArg String.data h
  simp only [mkPlotId] at hdata
  have hdec := congrArg decodeChars hdata
  rw [decodeChars_mkPlot, decodeChars_mkPlot] at hdec
  simp only [Option.some.injEq, Prod.mk.injEq] at hdec
  constructor <;> omega

/-! ### Claim theorem C6 -/

/-- Claim C6: every generated record's `plot_id` is the string
`R{row + 1:03d}C{col + 1:03d}` of its own zero-based `row`/`col`
(`mkPlotId` is exactly that formatting), and records at distinct
`(row, col)` never share a `plot_id`. -/
theorem generate_plot_ids (rows cols : ℤ) (O : Oracle) (mexp msin : ℚ → ℚ) :
    (∀ rec ∈ generateRecords rows cols O mexp msin,
      rec.plot_id = mkPlotId rec.row rec.col) ∧
    (∀ rec1 ∈ generateRecords rows cols O mexp msin,
     ∀ rec2 ∈ generateRecords rows cols O mexp msin,
      (rec1.row, rec1.col) ≠ (rec2.row, rec2.col) → rec1.plot_id ≠ rec2.plot_id) := by
  have hpid : ∀ rec ∈ generateRecords rows cols O mexp msin,
      rec.plot_id = mkPlotId rec.row rec.col := by
    intro rec hrec
    obtain ⟨r, _, c, _, k', hk'⟩ := mem_generateRecords rows cols O mexp msin hrec
    rw [hk', genCell_plot, genCell_row, genCell_col]
  have hnonneg : ∀ rec ∈ generateRecords rows cols O mexp msin,
      0 ≤ rec.row ∧ 0 ≤ rec.col := by
    intro rec hrec
    obtain ⟨r, hr, c, hcc, k', hk'⟩ := mem_generateRecords rows cols O mexp msin hrec
    rw [hk', genCell_row, genCell_col]
    unfold intRange at hr hcc
    obtain ⟨i, _, hi⟩ := List.mem_map.mp hr
    obtain ⟨j, _, hj⟩ := List.mem_map.mp hcc
    rw [← hi, ← hj]
    exact ⟨Int.natCast_nonneg i, Int.natCast_nonneg j⟩
  refine ⟨hpid, ?_⟩
  intro rec1 h1 rec2 h2 hne heq
  rw [hpid rec1 h1, hpid rec2 h2] at heq
  obtain ⟨hrow, hcol⟩ := mkPlotId_inj (hnonneg rec1 h1).1 (hnonneg rec1 h1).2
    (hnonneg rec2 h2).1 (hnonneg rec2 h2).2 heq
  exact hne (by rw [hrow, hcol])

/-- Witness for C6 on the single record of a concrete 1 by 1 grid. -/
theorem generate_plot_ids_witness :
    ((generateRecords 1 1 zOracle id id).getD 0 default).plot_id =
      mkPlotId ((generateRecords 1 1 zOracle id id).getD 0 default).row
        ((generateRecords 1 1 zOracle id id).getD 0 default).col := by
  apply (generate_plot_ids 1 1 zOracle id id).1
  apply getD_zero_mem
  intro hnil
  have h := generateRecords_length 1 1 zOracle id id
  rw [hnil] at h
  simp at h

/-! ### CSV codec lemmas (claim C8) -/

theorem isDigit_ne_minus {ch : Char} (h : ch.isDigit = true) : ch ≠ '-' := by
  intro he
  rw [he] at h
  exact absurd h (by decide)

theorem chFold_natStr (m : ℕ) : chFold (natStr m) = m := by
  unfold natStr
  by_cases h : m = 0
  · simp [h, chFold, chVal]
  · rw [if_neg h]
    exact chFold_digitsBE m

theorem natStr_ne_nil (m : ℕ) : natStr m ≠ [] := by
  unfold natStr
  by_cases h : m = 0
  · simp [h]
  · rw [if_neg h]
    unfold digitsBE
    simp [Nat.digits_ne_nil_iff_ne_zero.mpr h]

theorem natStr_all_digits {ch : Char} {m : ℕ} (h : ch ∈ natStr m) :
    ch.isDigit = true := by
  unfold natStr at h
  by_cases h0 : m = 0
  · rw [h0] at h
    simp at h
    subst h
    decide
  · rw [if_neg h0] at h
    obtain ⟨d, hd, hdc⟩ := mem_digitsBE h
    subst hdc
    exact digitChar_isDigit hd

theorem natStr_ne_dot {ch : Char} {m : ℕ} (h : ch ∈ natStr m) : (ch != '.') = true := by
  unfold natStr at h
  by_cases h0 : m = 0
  · rw [h0] at h
    simp at h
    subst h
    decide
  · rw [if_neg h0] at h
    obtain ⟨d, hd, hdc⟩ := mem_digitsBE h
    subst hdc
    exact digitChar_ne_dot hd

theorem parseIntChars_intStr (n : ℤ) : parseIntChars (intStr n) = some n := by
  unfold parseIntChars intStr
  by_cases hn : n < 0
  · rw [if_pos hn]
    dsimp only [List.cons_append, List.head?_cons, List.tail_cons, List.nil_append]
    rw [if_pos rfl, if_pos]
    · rw [chFold_natStr]
      congr 1
      omega
    · exact ⟨natStr_ne_nil n.natAbs, List.all_eq_true.mpr fun ch hch => natStr_all_digits hch⟩
  · rw [if_neg hn, List.nil_append]
    have hhead : (natStr n.natAbs).head? ≠ some '-' := by
      cases hns : natStr n.natAbs with
      | nil => exact absurd hns (natStr_ne_nil n.natAbs)
      | cons a t =>
          rw [List.head?_cons]
          intro hsome
          have ha : a ∈ natStr n.natAbs := by rw [hns]; exact List.mem_cons_self a t
          have := isDigit_ne_minus (natStr_all_digits ha)
          simp at hsome
          exact this hsome
    rw [if_neg hhead, if_pos]
    · rw [chFold_natStr]
      congr 1
      omega
    · exact ⟨natStr_ne_nil n.natAbs, List.all_eq_true.mpr fun ch hch => natStr_all_digits hch⟩

theorem digits_length_le {n w : ℕ} (h : n < 10 ^ w) : (Nat.digits 10 n).length ≤ w := by
  rcases Nat.eq_zero_or_pos n with h0 | h0
  · subst h0
    simp
  · by_contra hc
    push_neg at hc
    have h1 := Nat.base_pow_length_digits_le 10 n (by norm_num) h0.ne'
    have h2 : 10 ^ (w + 1) ≤ 10 ^ (Nat.digits 10 n).length :=
      Nat.pow_le_pow_right (by norm_num) hc
    have h3 : 10 ^ (w + 1) = 10 * 10 ^ w := by ring
    have h4 : 10 * 10 ^ w ≤ 10 * n := by omega
    omega

theorem padDigits_length {w n : ℕ} (h : n < 10 ^ w) : (padDigits w n).length = w := by
  have hle : (digitsBE n).length ≤ w := by
    unfold digitsBE
    rw [List.length_map, List.length_reverse]
    exact digits_length_le h
  unfold padDigits
  rw [List.length_append, List.length_replicate]
  omega

theorem parseFloatCore_concat (q rem : ℕ) (hrem : rem < 10000) :
    parseFloatCore (natStr q ++ '.' :: padDigits 4 rem) =
      some ((q : ℚ) + (rem : ℚ) / 10 ^ 4) := by
  have hdot : ∀ ch ∈ natStr q, (ch != '.') = true := fun ch hch => natStr_ne_dot hch
  unfold parseFloatCore
  rw [takeWhile_append_all hdot, dropWhile_append_all hdot]
  simp only [List.takeWhile_cons, List.dropWhile_cons]
  norm_num
  refine ⟨⟨fun ch hch => natStr_all_digits hch, fun ch hch => padDigits_isDigit hch,
    Or.inl (natStr_ne_nil q)⟩, ?_⟩
  rw [chFold_natStr, chFold_padDigits,
    padDigits_length (show rem < 10 ^ 4 by norm_num [hrem])]
  norm_num

theorem parseFloat_fmt_core (n : ℤ) :
    parseFloatChars ((if n < 0 then ['-'] else []) ++
      natStr (n.natAbs / 10000) ++ '.' :: padDigits 4 (n.natAbs % 10000)) =
      some ((n : ℚ) / 10000) := by
  have hmod : n.natAbs % 10000 < 10000 := Nat.mod_lt _ (by norm_num)
  have hsplit : ((n.natAbs / 10000 : ℕ) : ℚ) + ((n.natAbs % 10000 : ℕ) : ℚ) / 10 ^ 4 =
      ((n.natAbs : ℕ) : ℚ) / 10000 := by
    have hdm : 10000 * (n.natAbs / 10000) + n.natAbs % 10000 = n.natAbs :=
      Nat.div_add_mod n.natAbs 10000
    have hq : (10000 : ℚ) * ((n.natAbs / 10000 : ℕ) : ℚ) + ((n.natAbs % 10000 : ℕ) : ℚ) =
        ((n.natAbs : ℕ) : ℚ) := by
      exact_mod_cast congrArg (fun t : ℕ => (t : ℚ)) hdm
    have h4 : (10 : ℚ) ^ 4 = 10000 := by norm_num
    rw [h4]
    field_simp
    linarith [hq]
  unfold parseFloatChars
  by_cases hneg : n < 0
  · rw [if_pos hneg]
    dsimp only [List.cons_append, List.nil_append, List.head?_cons, List.tail_cons]
    rw [if_pos rfl, parseFloatCore_concat _ _ hmod, Option.map_some']
    congr 1
    have hcast : ((n.natAbs : ℕ) : ℚ) = -(n : ℚ) := by
      rw [Int.cast_natAbs]
      exact_mod_cast abs_of_neg hneg
    rw [hsplit, hcast]
    ring
  · rw [if_neg hneg, List.nil_append]
    have hhead : (natStr (n.natAbs / 10000) ++ '.' :: padDigits 4 (n.natAbs % 10000)).head? ≠
        some '-' := by
      cases hns : natStr (n.natAbs / 10000) with
      | nil => exact absurd hns (natStr_ne_nil _)
      | cons a t =>
          rw [List.cons_append, List.head?_cons]
          intro hsome
          have ha : a ∈ natStr (n.natAbs / 10000) := by
            rw [hns]; exact List.mem_cons_self a t
          have hne := isDigit_ne_minus (natStr_all_digits ha)
          simp at hsome
          exact hne hsome
    rw [if_neg hhead, parseFloatCore_concat _ _ hmod]
    congr 1
    have hcast : ((n.natAbs : ℕ) : ℚ) = (n : ℚ) := by
      rw [Int.cast_natAbs]
      exact_mod_cast abs_of_nonneg (not_lt.mp hneg)
    rw [hsplit, hcast]

theorem parseFloatChars_fmt4 (x : ℚ) : parseFloatChars (fmt4 x) = some (round4 x) := by
  unfold fmt4 round4
  exact parseFloat_fmt_core (round (x * 10000))

theorem parseRow_saveRow (rec : SpectralRecord) :
    parseRow (saveRow rec) = some (roundRecord4 rec) := by
  simp only [parseRow, saveRow, parseIntChars_intStr, parseFloatChars_fmt4,
    Option.some_bind]
  rfl

theorem parseRows_map (records : List SpectralRecord) :
    parseRows (records.map saveRow) = some (records.map roundRecord4) := by
  induction records with
  | nil => rfl
  | cons rec rest ih =>
      simp only [List.map_cons, parseRows, parseRow_saveRow, ih]

/-! ### Claim theorem C8 -/

/-- Claim C8: serializing a record list with `save_records_csv` and
deserializing with `load_records_csv` yields a list of the same length in
the same order whose `plot_id`, `row` and `col` equal the originals
exactly and whose nine band fields equal the originals rounded to 4
decimal places. -/
theorem csv_roundtrip (records : List SpectralRecord) :
    ∃ loaded, load_records_csv (save_records_csv records) = some loaded ∧
      List.Forall₂ (fun orig new =>
        new.plot_id = orig.plot_id ∧ new.row = orig.row ∧ new.col = orig.col ∧
        new.blue_480 = round4 orig.blue_480 ∧ new.green_560 = round4 orig.green_560 ∧
        new.red_665 = round4 orig.red_665 ∧ new.red_edge_705 = round4 orig.red_edge_705 ∧
        new.red_edge_740 = round4 orig.red_edge_740 ∧ new.nir_842 = round4 orig.nir_842 ∧
        new.nir2_865 = round4 orig.nir2_865 ∧ new.swir_1610 = round4 orig.swir_1610 ∧
        new.swir_2190 = round4 orig.swir_2190) records loaded := by
  refine ⟨records.map roundRecord4, ?_, ?_⟩
  · have h : load_records_csv (save_records_csv records) =
        if csvHeader = csvHeader then parseRows (records.map saveRow) else none := rfl
    rw [h, if_pos rfl]
    exact parseRows_map records
  · rw [List.forall₂_map_right_iff]
    exact List.forall₂_same.mpr fun rec _ =>
      ⟨rfl, rfl, rfl, rfl, rfl, rfl, rfl, rfl, rfl, rfl, rfl, rfl⟩

/-- Witness for C8 on a concrete one-record list. -/
theorem csv_roundtrip_witness :
    ∃ loaded,
      load_records_csv (save_records_csv [(default : SpectralRecord)]) = some loaded ∧
      List.Forall₂ (fun orig new =>
        new.plot_id = orig.plot_id ∧ new.row = orig.row ∧ new.col = orig.col ∧
        new.blue_480 = round4 orig.blue_480 ∧ new.green_560 = round4 orig.green_560 ∧
        new.red_665 = round4 orig.red_665 ∧ new.red_edge_705 = round4 orig.red_edge_705 ∧
        new.red_edge_740 = round4 orig.red_edge_740 ∧ new.nir_842 = round4 orig.nir_842 ∧
        new.nir2_865 = round4 orig.nir2_865 ∧ new.swir_1610 = round4 orig.swir_1610 ∧
        new.swir_2190 = round4 orig.swir_2190)
        [(default : SpectralRecord)] loaded :=
  csv_roundtrip [default]
